import Mathlib

/-!
Verification of the Deep Dream optimization core of the DeepAPI repository
(`server/deep_api/algorithms/deep_dream.py`), as a shallow embedding.

Modelling conventions:
* A PIL `Image` becomes `Img`: integer width/height plus a data function
  `channel → y → x → ℚ` holding raw byte values.
* A torch tensor (batch dimension 1 is left implicit, as the code only ever
  touches `tensor[0]`) becomes `Tensor`: channels/height/width plus a data
  function over rationals.
* External collaborators (the torch autograd runtime, torch's
  standard-deviation reduction, and PIL's resize/Gaussian-blur interpolation
  kernels) are parameters of the embedding, as the spec's §6 lists them as
  consumed collaborator interfaces.  Their exact numerics live outside the
  repository; everything the repository itself computes is embedded exactly.
* Python's `int()` truncation toward zero is `pyInt`.
* PIL's `Image.resize` raises `ValueError("height and width must be > 0")`
  when a requested dimension is not positive; resizing is therefore fallible
  (`Except PILError`), and so are `scaled`, the pyramid builder and the
  whole `run`, which propagate that exception.
-/

namespace DeepAPI

/-- A host-format image: integer pixel width/height and per-channel data. -/
structure Img where
  width : Nat
  height : Nat
  data : Nat → Nat → Nat → ℚ

/-- A rank-3 numeric tensor (the batch dimension of size 1 is implicit). -/
structure Tensor where
  channels : Nat
  height : Nat
  width : Nat
  data : Nat → Nat → Nat → ℚ

/-- Constant `MEAN = [0.485, 0.456, 0.406]` from the source. -/
def MEAN : List ℚ := [485/1000, 456/1000, 406/1000]

/-- Constant `STD = [0.229, 0.224, 0.225]` from the source. -/
def STD : List ℚ := [229/1000, 224/1000, 225/1000]

/-- Constant `IMEAN = [-0.485/0.229, -0.456/0.224, -0.406/0.225]` from the source. -/
def IMEAN : List ℚ := [-(485/1000)/(229/1000), -(456/1000)/(224/1000), -(406/1000)/(225/1000)]

/-- Constant `ISTD = [1/0.229, 1/0.224, 1/0.225]` from the source. -/
def ISTD : List ℚ := [1/(229/1000), 1/(224/1000), 1/(225/1000)]

/-- Constant `SIZE = 512` from the source: the fixed square working resolution. -/
def SIZE : Nat := 512

/-- Channel mean, `MEAN[c]` (out-of-range channels never occur in the code). -/
def meanAt (c : Nat) : ℚ := MEAN.getD c 0

/-- Channel standard deviation, `STD[c]`. -/
def stdAt (c : Nat) : ℚ := STD.getD c 1

/-- Channel inverse-normalization mean, `IMEAN[c]`. -/
def imeanAt (c : Nat) : ℚ := IMEAN.getD c 0

/-- Channel inverse-normalization std, `ISTD[c]`. -/
def istdAt (c : Nat) : ℚ := ISTD.getD c 1

/-- Model of `torch.clamp(x, lo, hi) = min(max(x, lo), hi)`. -/
def clampQ (x lo hi : ℚ) : ℚ := min (max x lo) hi

/-- Python's `int()` on a rational: truncation toward zero. -/
def pyInt (q : ℚ) : ℤ := if 0 ≤ q then ⌊q⌋ else -⌊-q⌋

/--
Model of `clip` (source lines 44-50): clamp channels 0..2 of the (batch-1) tensor to
the per-channel normalized range `[-mean/std, (1-mean)/std]`; channels with
index ≥ 3 are not visited by the `enumerate(zip(MEAN, STD))` loop.
-/
def clip (image : Tensor) : Tensor :=
  { image with
    data := fun c y x =>
      if c < 3 then
        clampQ (image.data c y x) (-(meanAt c) / stdAt c) ((1 - meanAt c) / stdAt c)
      else image.data c y x }

/--
The image codec collaborator (PIL): interpolation kernels for `Image.resize`
and `ImageFilter.GaussianBlur`.  Only the pixel data is abstract; the output
dimensions are fixed by PIL's contract (`resize` returns exactly the requested
size, a filter preserves the size) and are imposed structurally below.
-/
structure ImageRuntime where
  resizeData : Img → Nat → Nat → (Nat → Nat → Nat → ℚ)
  blurData : Img → ℚ → (Nat → Nat → Nat → ℚ)

/-- Exceptions raised by PIL; `valueError` is
`ValueError("height and width must be > 0")` from `Image.resize`. -/
inductive PILError
  | valueError
deriving DecidableEq

/-- Application of the resize interpolation kernel on the legal domain: an
image of exactly the requested size.  Used directly only where the target
size is positive: the fixed `SIZE`×`SIZE` working resolution in
`preprocess`, and the dream upsample in the orchestrator, whose target is
the size of a pyramid element of a successfully built pyramid (all such
elements have positive dimensions, see `create_inceptions`). -/
def resizeTo (irt : ImageRuntime) (image : Img) (w h : Nat) : Img :=
  ⟨w, h, irt.resizeData image w h⟩

/-- Model of `image.resize((w, h))`: PIL raises
`ValueError("height and width must be > 0")` unless both requested
dimensions are at least 1; on the legal domain the result has exactly the
requested size.  The arguments are integers because `scaled` computes them
with Python `int()`, which can produce zero or negative values. -/
def resizeImg (irt : ImageRuntime) (image : Img) (w h : ℤ) :
    Except PILError Img :=
  if 0 < w ∧ 0 < h then .ok (resizeTo irt image w.toNat h.toNat)
  else .error .valueError

/-- Model of `image.filter(ImageFilter.GaussianBlur(radius))`: size-preserving. -/
def gaussianBlur (irt : ImageRuntime) (image : Img) (radius : ℚ) : Img :=
  ⟨image.width, image.height, irt.blurData image radius⟩

/-- Model of `Image.blend(im1, im2, alpha) = im1*(1-alpha) + im2*alpha`, pixelwise;
where it is called the two images have equal size, taken from `im1`. -/
def blendImg (im1 im2 : Img) (alpha : ℚ) : Img :=
  ⟨im1.width, im1.height,
    fun c y x => im1.data c y x * (1 - alpha) + im2.data c y x * alpha⟩

/--
Model of `preprocess` (source lines 20-30): `Resize((SIZE, SIZE))`, `ToTensor()`
(byte values scaled into `[0,1]` by division by 255) and
`Normalize(mean=MEAN, std=STD)` (per channel `(v - mean)/std`), then a batch
dimension (implicit here) and gradient tracking (handled by the autograd
collaborator below).
-/
def preprocess (irt : ImageRuntime) (image : Img) : Tensor :=
  let r := resizeTo irt image SIZE SIZE
  ⟨3, SIZE, SIZE, fun c y x => (r.data c y x / 255 - meanAt c) / stdAt c⟩

/-- Truncation toward zero then wrap to a byte, as torch's float-to-uint8
cast does in `ToPILImage`'s `pic.mul(255).byte()`. -/
def toByte (q : ℚ) : ℕ := ((pyInt q) % 256).toNat

/--
Model of `postprocess` (source lines 33-41): `Normalize(IMEAN, ISTD)` (per channel
`(v - imean)/istd`) followed by `ToPILImage()`, which scales by 255, casts to
bytes and yields an image whose pixel size equals the tensor's height/width.
-/
def postprocess (t : Tensor) : Img :=
  ⟨t.width, t.height,
    fun c y x => (toByte (((t.data c y x - imeanAt c) / istdAt c) * 255) : ℚ)⟩

/--
Model of `scaled` (source lines 53-59): `width = int(image.width * factor)`,
`height = int(image.height * factor)`, then `image.resize((width, height))`.
`pyInt` is Python's truncation toward zero; when either product truncates
to zero or below — small images, or a nonpositive `factor` — PIL's
`resize` raises `ValueError`, which the `Except` propagates.
-/
def scaled (irt : ImageRuntime) (image : Img) (factor : ℚ) :
    Except PILError Img :=
  resizeImg irt image (pyInt ((image.width : ℚ) * factor))
    (pyInt ((image.height : ℚ) * factor))

/-- One step of the pyramid builder's loop body (source lines 166-168):
Gaussian-blur the previous element, then scale it by `scale_factor`;
fallible because `scaled` is. -/
def inceptStep (irt : ImageRuntime) (sf br : ℚ) (image : Img) :
    Except PILError Img :=
  scaled irt (gaussianBlur irt image br) sf

/-- The chain of `k` successive blur-then-scale derivations starting after
`image` (each new element is derived from the previous appended one); the
first `ValueError` of a derivation step aborts the whole loop. -/
def inceptChain (irt : ImageRuntime) (sf br : ℚ) :
    Nat → Img → Except PILError (List Img)
  | 0, _ => .ok []
  | k + 1, image =>
    match inceptStep irt sf br image with
    | .error e => .error e
    | .ok nxt =>
      match inceptChain irt sf br k nxt with
      | .error e => .error e
      | .ok rest => .ok (nxt :: rest)

/--
Model of `create_inceptions` (source lines 153-170): start from `[image]` and append
`n_inceptions - 1` blur-then-scale derivations of the running last element,
propagating a `ValueError` raised by any `scaled` call.
Python's `range(n_inceptions - 1)` is empty for `n_inceptions ≤ 1`, which
truncated `Nat` subtraction reproduces: `n_inceptions = 0` yields `[image]`.
-/
def create_inceptions (irt : ImageRuntime) (image : Img) (n_inceptions : Nat)
    (scale_factor blur_radius : ℚ) : Except PILError (List Img) :=
  match inceptChain irt scale_factor blur_radius (n_inceptions - 1) image with
  | .error e => .error e
  | .ok chain => .ok (image :: chain)

/-! ## The activation-tap backbone (`DeepGoogLeNet`, source lines 62-95)

The wrapped classifier (torchvision's GoogLeNet) is the collaborator
"pretrained classifier architecture with named, addressable sub-layers": it
is modelled as a list of named layer functions, executed once each per
forward pass in order (torchvision's GoogLeNet applies each of its named
children exactly once per pass in the training mode the code leaves it in).
`dict(self.named_children())` becomes `List.lookup` over that list. -/

/-- A capture-hook handle: which instance registered it, on which layer. -/
structure Hook where
  instId : Nat
  layerName : String
deriving DecidableEq

/-- Observable events of `DeepGoogLeNet.__init__`. -/
inductive DGEvent
  | loadWeights
  | installHook (name : String)
  | forwardPass
deriving DecidableEq

/-- Errors of `DeepGoogLeNet.__init__`; `lookupError` is Python's `KeyError`
(a subclass of `LookupError`) from `dict(self.named_children())[layer_name]`. -/
inductive InitError
  | lookupError (name : String)
deriving DecidableEq

/-- A named-layer architecture: the backbone's addressable sub-layers in
execution order. -/
def Arch : Type := List (String × (Tensor → Tensor))

/-- A constructed `DeepGoogLeNet` instance: its layers and the names of the
layers it hooked (`loi`). -/
structure DGInstance where
  layers : Arch
  hooked : List String

/-- The mutable captured-activation state (`self.features`). -/
structure FwdState where
  features : List Tensor

/--
The hook-installation loop of `__init__` (source lines 82-85), threaded over
the class-level shared hook list: per `layer_name` in `loi`, look the name up
among the named children (raising `KeyError` on a miss, keeping the hooks
already appended) and append the new hook handle to the shared list.
-/
def installHooks (arch : Arch) (instId : Nat) :
    List String → List Hook → (List DGEvent × List Hook × Except InitError Unit)
  | [], hooks => ([], hooks, .ok ())
  | name :: rest, hooks =>
    match List.lookup name arch with
    | none => ([], hooks, .error (.lookupError name))
    | some _ =>
      let r := installHooks arch instId rest (hooks ++ [⟨instId, name⟩])
      (.installHook name :: r.1, r.2)

/--
Model of `DeepGoogLeNet.__init__` (source lines 74-85): load the pretrained weights,
then install one capture hook per layer of interest.  Returns the events, the
updated class-level shared hook list, and the constructed instance or the
first lookup error.  No forward pass happens during construction.
-/
def dgInit (arch : Arch) (instId : Nat) (loi : List String) (shared : List Hook) :
    List DGEvent × List Hook × Except InitError DGInstance :=
  let r := installHooks arch instId loi shared
  (.loadWeights :: r.1, r.2.1, r.2.2.map fun _ => ⟨arch, loi⟩)

/--
Model of `DeepGoogLeNet.remove` (source lines 90-91): detach every hook handle held in
`self.hooks`.  `hooks` is a class-level attribute that `__init__` only ever
mutates in place, so `self.hooks` is the shared class list no matter which
instance is the receiver; the detached set is the whole shared list.
-/
def dgRemove (receiverId : Nat) (shared : List Hook) : List Hook := shared

/--
The layer-execution loop inside the wrapped classifier's forward pass: each
named child transforms the running tensor once, and a child whose name was
hooked appends its output to the captured-activation state
(`feature_hook`, source lines 87-88).
-/
def runLayers (hooked : List String) :
    Arch → FwdState → Tensor → FwdState × Tensor
  | [], s, x => (s, x)
  | (name, f) :: rest, s, x =>
    let out := f x
    let s' := if name ∈ hooked then FwdState.mk (s.features ++ [out]) else s
    runLayers hooked rest s' out

/--
Model of `DeepGoogLeNet.forward` (source lines 93-95): reset `self.features` to the
empty list, then run the wrapped classifier's forward pass, during which the
installed hooks repopulate the captured-activation state.
-/
def dgForward (inst : DGInstance) (s : FwdState) (x : Tensor) : FwdState × Tensor :=
  runLayers inst.hooked inst.layers ⟨[]⟩ x

/-- The activations every layer produces during one forward pass on `x`, in
execution order (each layer feeds the next). -/
def layerActivations : Arch → Tensor → List (String × Tensor)
  | [], _ => []
  | (name, f) :: rest, x => (name, f x) :: layerActivations rest (f x)

/-- Sum of all elements of the tensor (the numerator of `torch.mean`). -/
def tsum3 (t : Tensor) : ℚ :=
  ((List.range t.channels).map fun c =>
    ((List.range t.height).map fun y =>
      ((List.range t.width).map fun x => t.data c y x).sum).sum).sum

/-- Model of `torch.mean(t)`: the mean over all elements. -/
def tmean (t : Tensor) : ℚ :=
  tsum3 t / ((t.channels : ℚ) * (t.height : ℚ) * (t.width : ℚ))

/--
Model of `DeepDream.deep_dream_loss` (source lines 109-121): run the target through
the net (repopulating `model.features`), then `torch.stack` the per-feature
means and sum them.  (`torch.stack` requires at least one captured feature;
theorems assume a nonempty monitored set.)  Returns the updated forward
state together with the scalar loss.
-/
def deep_dream_loss (inst : DGInstance) (s : FwdState) (target : Tensor) :
    FwdState × ℚ :=
  let r := dgForward inst s target
  (r.1, (r.1.features.map tmean).sum)

/-! ## The single-scale optimizer (`DeepDream.dream_inception`, lines 123-151) -/

/-- Elementwise sum of two tensors; shape taken from the first operand (in
the code both operands always share the target's shape). -/
def addT (a b : Tensor) : Tensor :=
  ⟨a.channels, a.height, a.width, fun c y x => a.data c y x + b.data c y x⟩

/-- A tensor divided by a scalar, elementwise. -/
def divT (t : Tensor) (q : ℚ) : Tensor :=
  ⟨t.channels, t.height, t.width, fun c y x => t.data c y x / q⟩

/-- A tensor multiplied by a scalar, elementwise. -/
def mulT (t : Tensor) (q : ℚ) : Tensor :=
  ⟨t.channels, t.height, t.width, fun c y x => t.data c y x * q⟩

/-- The `1e-8` epsilon of the gradient standardization. -/
def gradEps : ℚ := 1/100000000

/--
The torch autograd collaborator (spec §6: "backpropagation with graph
retention", "standard-deviation reduction"):
* `backward t` is the gradient the backward pass deposits in `target.grad`
  when the deep-dream loss of target `t` is backpropagated (the gradient is
  zeroed before every backward call after the first, so no accumulation);
* `stdev` is `torch.std` over all elements.
-/
structure AutogradRuntime where
  backward : Tensor → Tensor
  stdev : Tensor → ℚ

/-- The state carried across epochs of `dream_inception`: the captured-feature
state of the model, the target tensor, and the `learning_rate` variable
(which the source reassigns inside the loop). -/
structure DreamState where
  fwd : FwdState
  target : Tensor
  lr : ℚ

/--
One epoch of `dream_inception` (source lines 135-150): zero the gradient,
compute the deep-dream loss (a forward pass repopulating the features) and
backpropagate it; standardize the gradient by its standard deviation plus
`1e-8`; reassign `learning_rate := learning_rate / learning_weight`; add
`grad * learning_rate` to the target; clip.  Also returns the tensor that was
added to the target this epoch.
-/
def dreamStep (inst : DGInstance) (rt : AutogradRuntime) (lw : ℚ)
    (st : DreamState) : DreamState × Tensor :=
  let fwd' := (deep_dream_loss inst st.fwd st.target).1
  let g := rt.backward st.target
  let grad := divT g (rt.stdev g + gradEps)
  let lr' := st.lr / lw
  let added := mulT grad lr'
  let target' := clip (addT st.target added)
  (⟨fwd', target', lr'⟩, added)

/-- The epoch loop of `dream_inception`, returning the final state and the
list of tensors added to the target, one per epoch in order. -/
def dreamLoop (inst : DGInstance) (rt : AutogradRuntime) (lw : ℚ) :
    Nat → DreamState → DreamState × List Tensor
  | 0, st => (st, [])
  | k + 1, st =>
    let r := dreamStep inst rt lw st
    let rest := dreamLoop inst rt lw k r.1
    (rest.1, r.2 :: rest.2)

/-- The state of `dream_inception` when entering epoch `i`. -/
def dreamStateAt (inst : DGInstance) (rt : AutogradRuntime) (lw : ℚ)
    (st : DreamState) : Nat → DreamState
  | 0 => st
  | i + 1 => (dreamStep inst rt lw (dreamStateAt inst rt lw st i)).1

/--
Model of `DeepDream.dream_inception` (source lines 123-151): preprocess the image into
the target tensor, then run `epochs` gradient-ascent epochs.  Returns the
final state (forward state, target, decayed learning-rate variable).
-/
def dream_inception (inst : DGInstance) (irt : ImageRuntime)
    (rt : AutogradRuntime) (s : FwdState) (image : Img) (epochs : Nat)
    (learning_rate learning_weight : ℚ) : DreamState :=
  (dreamLoop inst rt learning_weight epochs
    ⟨s, preprocess irt image, learning_rate⟩).1

/-- The per-epoch added tensors of one `dream_inception` call. -/
def dreamAdded (inst : DGInstance) (irt : ImageRuntime) (rt : AutogradRuntime)
    (s : FwdState) (image : Img) (epochs : Nat)
    (learning_rate learning_weight : ℚ) : List Tensor :=
  (dreamLoop inst rt learning_weight epochs
    ⟨s, preprocess irt image, learning_rate⟩).2

/-- The standardized gradient `target.grad / (torch.std(target.grad) + 1e-8)`
computed in epoch `i` of a `dream_inception` call. -/
def stdGradAt (inst : DGInstance) (irt : ImageRuntime) (rt : AutogradRuntime)
    (s : FwdState) (image : Img) (learning_rate learning_weight : ℚ)
    (i : Nat) : Tensor :=
  let g := rt.backward (dreamStateAt inst rt learning_weight
    ⟨s, preprocess irt image, learning_rate⟩ i).target
  divT g (rt.stdev g + gradEps)

/-! ## The multi-scale orchestrator (`DeepDream.__call__`, lines 172-216) -/

/--
The orchestrator loop (source lines 196-214) over the reversed pyramid:
`w` is the reverse-iteration index; when a running dream exists it is resized
to the current level and blended with it into `scale` — which the source
then never reads (the optimizer runs on the unblended `inception`); the
optimizer's result is postprocessed into the new running dream.
-/
def dreamPass (inst : DGInstance) (irt : ImageRuntime) (rt : AutogradRuntime)
    (epochs : Nat) (learning_rate blend_factor : ℚ) :
    List Img → Nat → FwdState → Option Img → FwdState × Option Img
  | [], _, s, dream => (s, dream)
  | inception :: rest, w, s, dream =>
    let _scale : Option Img := dream.map fun d =>
      blendImg inception (resizeTo irt d inception.width inception.height)
        blend_factor
    let st := dream_inception inst irt rt s inception epochs learning_rate
      ((w : ℚ) + 1)
    dreamPass inst irt rt epochs learning_rate blend_factor rest (w + 1)
      st.fwd (some (postprocess st.target))

/--
Model of `DeepDream.__call__` (source lines 172-216): build the pyramid
(propagating a `ValueError` raised while building it), then drive the
reversed pyramid through the single-scale optimizer with
`learning_weight = w + 1`, carrying the postprocessed dream forward.
On success returns the final forward state and the final dream (`none`
never occurs: the pyramid is nonempty).  The `loi` parameter of `__call__`
is unused by the source and omitted here.
-/
def deepDreamCall (inst : DGInstance) (irt : ImageRuntime)
    (rt : AutogradRuntime) (s : FwdState) (image : Img) (epochs : Nat)
    (learning_rate : ℚ) (n_inceptions : Nat)
    (scale_factor blend_factor blur_radius : ℚ) :
    Except PILError (FwdState × Option Img) :=
  match create_inceptions irt image n_inceptions scale_factor blur_radius with
  | .error e => .error e
  | .ok inceptions =>
    .ok (dreamPass inst irt rt epochs learning_rate blend_factor
      inceptions.reverse 0 s none)

/-! ## Concrete objects used by witnesses and counterexamples -/

/-- The all-zero tensor, used as a `getD` default. -/
def zeroT : Tensor := ⟨0, 0, 0, fun _ _ _ => 0⟩

/-- The empty image, used as a `getD` default. -/
def emptyImg : Img := ⟨0, 0, fun _ _ _ => 0⟩

/-- A concrete grey test image of the given size. -/
def greyImg (w h : Nat) : Img := ⟨w, h, fun _ _ _ => 100⟩

/-- A concrete image codec whose interpolation kernels copy pixel data
through (their numerics are irrelevant to the properties under test). -/
def cIRT : ImageRuntime := ⟨fun i _ _ => i.data, fun i _ => i.data⟩

/-- The all-ones working-resolution tensor. -/
def oneT : Tensor := ⟨3, SIZE, SIZE, fun _ _ _ => 1⟩

/-- A concrete autograd runtime: constant all-ones gradient, zero standard
deviation. -/
def cRT : AutogradRuntime := ⟨fun _ => oneT, fun _ => 0⟩

/-- A concrete one-layer architecture (the identity layer). -/
def idArch : Arch := [("conv1", fun t => t)]

/-- A concrete backbone instance with no hooked layers (so that the loss's
feature list stays empty and witnesses stay cheap to evaluate). -/
def cInst : DGInstance := ⟨idArch, []⟩

/-- A concrete backbone instance hooking its single identity layer. -/
def cInstHooked : DGInstance := ⟨idArch, ["conv1"]⟩

/-- A tiny concrete tensor for loss witnesses. -/
def tinyT : Tensor := ⟨1, 1, 1, fun _ _ _ => 2⟩

/-! ## Theorems -/

/-- The per-channel clip bounds are ordered: `-mean/std ≤ (1-mean)/std`. -/
theorem clipLo_le_clipHi {c : Nat} (hc : c < 3) :
    -(meanAt c) / stdAt c ≤ (1 - meanAt c) / stdAt c := by
  interval_cases c <;> norm_num [meanAt, stdAt, MEAN, STD]

/-- Clamping to an ordered interval is idempotent. -/
theorem clampQ_idem {lo hi : ℚ} (h : lo ≤ hi) (v : ℚ) :
    clampQ (clampQ v lo hi) lo hi = clampQ v lo hi := by
  unfold clampQ
  rw [max_eq_left (le_min (le_max_right v lo) h), min_eq_left (min_le_right _ _)]

/--
C7: `clip` clamps, channel by channel (for the three channels the source's
`enumerate(zip(MEAN, STD))` loop visits), each value of the tensor into the
channel-dependent interval `[-MEAN[c]/STD[c], (1-MEAN[c])/STD[c]]`, and
`clip` is idempotent: `clip (clip t) = clip t`.
-/
theorem clip_clamps_and_idempotent (t : Tensor) (c y x : Nat) (hc : c < 3) :
    (-(meanAt c) / stdAt c ≤ (clip t).data c y x ∧
      (clip t).data c y x ≤ (1 - meanAt c) / stdAt c) ∧
    clip (clip t) = clip t := by
  constructor
  · simp only [clip, hc, if_true, clampQ]
    exact ⟨le_min (le_max_right _ _) (clipLo_le_clipHi hc),
      min_le_right _ _⟩
  · show Tensor.mk _ _ _ _ = Tensor.mk _ _ _ _
    congr 1
    funext c' y' x'
    by_cases h3 : c' < 3
    · simp only [clip, h3, if_true]
      exact clampQ_idem (clipLo_le_clipHi h3) _
    · simp only [clip, h3, if_false]

/-- Witness for C7 at a concrete tensor, channel and position. -/
theorem clip_clamps_and_idempotent_witness :
    (0 : Nat) < 3 ∧
    ((-(meanAt 0) / stdAt 0 ≤ (clip oneT).data 0 0 0 ∧
      (clip oneT).data 0 0 0 ≤ (1 - meanAt 0) / stdAt 0) ∧
    clip (clip oneT) = clip oneT) :=
  ⟨by decide, clip_clamps_and_idempotent oneT 0 0 0 (by decide)⟩

/-- A successfully built derivation chain has exactly `k` elements. -/
theorem inceptChain_ok_length (irt : ImageRuntime) (sf br : ℚ) :
    ∀ (k : Nat) (image : Img) (C : List Img),
      inceptChain irt sf br k image = .ok C → C.length = k := by
  intro k
  induction k with
  | zero =>
    intro image C h
    simp only [inceptChain] at h
    injection h with h
    subst h
    rfl
  | succ k ih =>
    intro image C h
    simp only [inceptChain] at h
    cases hstep : inceptStep irt sf br image with
    | error e => simp only [hstep] at h; exact Except.noConfusion h
    | ok nxt =>
      simp only [hstep] at h
      cases hrest : inceptChain irt sf br k nxt with
      | error e => simp only [hrest] at h; exact Except.noConfusion h
      | ok rest =>
        simp only [hrest] at h
        injection h with h
        subst h
        simp [ih nxt rest hrest]

/-- In a successfully built chain, every element after the first is the
successful blur-then-scale derivation of its predecessor. -/
theorem inceptChain_ok_step (irt : ImageRuntime) (sf br : ℚ) :
    ∀ (k : Nat) (image : Img) (C : List Img),
      inceptChain irt sf br k image = .ok C →
      ∀ i, i < k →
        inceptStep irt sf br ((image :: C).getD i emptyImg) =
          .ok ((image :: C).getD (i + 1) emptyImg) := by
  intro k
  induction k with
  | zero => intro image C h i hi; omega
  | succ k ih =>
    intro image C h i hi
    simp only [inceptChain] at h
    cases hstep : inceptStep irt sf br image with
    | error e => simp only [hstep] at h; exact Except.noConfusion h
    | ok nxt =>
      simp only [hstep] at h
      cases hrest : inceptChain irt sf br k nxt with
      | error e => simp only [hrest] at h; exact Except.noConfusion h
      | ok rest =>
        simp only [hrest] at h
        injection h with h
        subst h
        match i with
        | 0 => simpa using hstep
        | j + 1 =>
          have hj : j < k := by omega
          simpa using ih nxt rest hrest j hj

/-- A pyramid the builder returns is never empty: it starts with the
original image. -/
theorem create_inceptions_ok_ne_nil {irt : ImageRuntime} {image : Img}
    {n : Nat} {sf br : ℚ} {L : List Img}
    (h : create_inceptions irt image n sf br = .ok L) : L ≠ [] := by
  simp only [create_inceptions] at h
  cases hc : inceptChain irt sf br (n - 1) image with
  | error e => simp only [hc] at h; exact Except.noConfusion h
  | ok chain =>
    simp only [hc] at h
    injection h with h
    subst h
    simp

/--
C3 (amended): for every count `N ≥ 1`, whenever `create_inceptions`
returns a pyramid — it raises PIL's `ValueError` instead when some
blur-then-scale step truncates a dimension to zero or below — the pyramid
has exactly `N` images, element 0 is the original image unmodified, and
every later element is the successful blur-then-scale derivation
(`blur_radius`, then `scale_factor`) of its predecessor.  For `N = 0` the
builder still returns one image; see the counterexample.
-/
theorem create_inceptions_spec (irt : ImageRuntime) (image : Img)
    (n : Nat) (sf br : ℚ) (hn : 1 ≤ n) (L : List Img)
    (hok : create_inceptions irt image n sf br = .ok L) :
    L.length = n ∧ L.getD 0 emptyImg = image ∧
    ∀ i, i + 1 < n →
      inceptStep irt sf br (L.getD i emptyImg) =
        .ok (L.getD (i + 1) emptyImg) := by
  simp only [create_inceptions] at hok
  cases hchain : inceptChain irt sf br (n - 1) image with
  | error e => simp only [hchain] at hok; exact Except.noConfusion hok
  | ok chain =>
    simp only [hchain] at hok
    injection hok with hok
    subst hok
    refine ⟨?_, rfl, ?_⟩
    · have hl := inceptChain_ok_length irt sf br (n - 1) image chain hchain
      simp only [List.length_cons, hl]
      omega
    · intro i hi
      exact inceptChain_ok_step irt sf br (n - 1) image chain hchain i
        (by omega)

/-- Witness for C3 at a concrete 4×4 image and count 2: the builder
succeeds and the returned pyramid has the claimed structure. -/
theorem create_inceptions_spec_witness :
    1 ≤ 2 ∧
    ([greyImg 4 4,
      resizeTo cIRT (gaussianBlur cIRT (greyImg 4 4) 60) 2 2] :
        List Img).length = 2 ∧
    ([greyImg 4 4,
      resizeTo cIRT (gaussianBlur cIRT (greyImg 4 4) 60) 2 2] :
        List Img).getD 0 emptyImg = greyImg 4 4 ∧
    inceptStep cIRT (1/2) 60
        (([greyImg 4 4,
          resizeTo cIRT (gaussianBlur cIRT (greyImg 4 4) 60) 2 2] :
            List Img).getD 0 emptyImg) =
      .ok (([greyImg 4 4,
          resizeTo cIRT (gaussianBlur cIRT (greyImg 4 4) 60) 2 2] :
            List Img).getD (0 + 1) emptyImg) := by
  have h := create_inceptions_spec cIRT (greyImg 4 4) 2 (1/2) 60 (by decide)
    [greyImg 4 4, resizeTo cIRT (gaussianBlur cIRT (greyImg 4 4) 60) 2 2]
    (by
      have hfl : (⌊(2 : ℚ)⌋ : ℤ) = 2 := by
        rw [Int.floor_eq_iff]
        norm_num
      have hw : pyInt
          (((gaussianBlur cIRT (greyImg 4 4) 60).width : ℚ) * (1/2)) = 2 := by
        norm_num [pyInt, gaussianBlur, greyImg, hfl]
      have hh : pyInt
          (((gaussianBlur cIRT (greyImg 4 4) 60).height : ℚ) * (1/2)) = 2 := by
        norm_num [pyInt, gaussianBlur, greyImg, hfl]
      norm_num [create_inceptions, inceptChain, inceptStep, scaled,
        resizeImg, hw, hh]
      rfl)
  exact ⟨by decide, h.1, h.2.1, h.2.2 0 (by decide)⟩

/-- Counterexample to C3 as stated for every count: with `n_inceptions = 0`
the builder still returns one image (the original), not zero images. -/
theorem create_inceptions_zero_count_cex :
    create_inceptions cIRT (greyImg 4 4) 0 (1/2) 60 = .ok [greyImg 4 4] ∧
    ([greyImg 4 4] : List Img).length ≠ 0 :=
  ⟨rfl, by decide⟩

/-- Truncated scaling with factor < 1 strictly shrinks whenever the resize
succeeds: `0 < pyInt (w * f)` (PIL's success condition) forces `w ≥ 1` and
`f > 0`, and then the truncation is strictly below `w`. -/
theorem pyInt_pos_shrink {w : Nat} {f : ℚ}
    (hf : f < 1) (hpos : 0 < pyInt ((w : ℚ) * f)) :
    (pyInt ((w : ℚ) * f)).toNat < w := by
  rcases le_or_lt 0 ((w : ℚ) * f) with hq | hq
  · rw [pyInt, if_pos hq] at hpos ⊢
    have hw : 0 < w := by
      rcases Nat.eq_zero_or_pos w with h0 | h0
      · subst h0
        norm_num at hpos
      · exact h0
    have hlt : (w : ℚ) * f < (w : ℚ) := by
      calc (w : ℚ) * f < (w : ℚ) * 1 :=
            mul_lt_mul_of_pos_left hf (by exact_mod_cast hw)
        _ = (w : ℚ) := mul_one _
    have hfl : ⌊(w : ℚ) * f⌋ < (w : ℤ) := by
      rw [Int.floor_lt]
      push_cast
      exact hlt
    omega
  · rw [pyInt, if_neg (not_le.mpr hq)] at hpos
    have hnn : (0 : ℤ) ≤ ⌊-((w : ℚ) * f)⌋ :=
      Int.floor_nonneg.mpr (by linarith)
    omega

/-- A successful blur-then-scale derivation with `scale_factor < 1`
strictly shrinks both dimensions (PIL would have raised `ValueError` had a
truncated dimension not been positive). -/
theorem inceptStep_ok_shrink {irt : ImageRuntime} {sf br : ℚ}
    {img img' : Img} (hsf : sf < 1)
    (h : inceptStep irt sf br img = .ok img') :
    img'.width < img.width ∧ img'.height < img.height := by
  simp only [inceptStep, scaled, resizeImg, gaussianBlur] at h
  by_cases hc : 0 < pyInt ((img.width : ℚ) * sf) ∧
      0 < pyInt ((img.height : ℚ) * sf)
  · rw [if_pos hc] at h
    injection h with h
    subst h
    exact ⟨pyInt_pos_shrink hsf hc.1, pyInt_pos_shrink hsf hc.2⟩
  · rw [if_neg hc] at h
    simp at h

/--
C4: for every input image and pyramid count, if `scale_factor < 1` then
each element of the pyramid the builder returns has strictly smaller width
and strictly smaller height than its predecessor, the new dimensions being
the truncations of `width * factor` and `height * factor`.  This holds
because a derivation whose truncated dimension is not positive does not
yield a pyramid element at all: PIL's `resize` raises `ValueError` and the
builder propagates it, so every returned consecutive pair passed the
positivity check, which together with `scale_factor < 1` forces a strict
shrink.
-/
theorem pyramid_strict_shrink (irt : ImageRuntime) (image : Img) (n : Nat)
    (sf br : ℚ) (hsf : sf < 1) (L : List Img)
    (hok : create_inceptions irt image n sf br = .ok L)
    (i : Nat) (hi : i + 1 < L.length) :
    (L.getD (i + 1) emptyImg).width < (L.getD i emptyImg).width ∧
    (L.getD (i + 1) emptyImg).height < (L.getD i emptyImg).height := by
  simp only [create_inceptions] at hok
  cases hchain : inceptChain irt sf br (n - 1) image with
  | error e => simp only [hchain] at hok; exact Except.noConfusion hok
  | ok chain =>
    simp only [hchain] at hok
    injection hok with hok
    subst hok
    have hl := inceptChain_ok_length irt sf br (n - 1) image chain hchain
    have hstep := inceptChain_ok_step irt sf br (n - 1) image chain hchain i
      (by simp only [List.length_cons] at hi; omega)
    exact inceptStep_ok_shrink hsf hstep

/-- Witness for C4 at a concrete 4×4 image shrunk by 1/2: the returned
pyramid's second element is strictly smaller than the first. -/
theorem pyramid_strict_shrink_witness :
    (1/2 : ℚ) < 1 ∧
    (([greyImg 4 4,
        resizeTo cIRT (gaussianBlur cIRT (greyImg 4 4) 60) 2 2] :
          List Img).getD (0 + 1) emptyImg).width <
      (([greyImg 4 4,
        resizeTo cIRT (gaussianBlur cIRT (greyImg 4 4) 60) 2 2] :
          List Img).getD 0 emptyImg).width ∧
    (([greyImg 4 4,
        resizeTo cIRT (gaussianBlur cIRT (greyImg 4 4) 60) 2 2] :
          List Img).getD (0 + 1) emptyImg).height <
      (([greyImg 4 4,
        resizeTo cIRT (gaussianBlur cIRT (greyImg 4 4) 60) 2 2] :
          List Img).getD 0 emptyImg).height := by
  have h := pyramid_strict_shrink cIRT (greyImg 4 4) 2 (1/2) 60 (by norm_num)
    [greyImg 4 4, resizeTo cIRT (gaussianBlur cIRT (greyImg 4 4) 60) 2 2]
    (by
      have hfl : (⌊(2 : ℚ)⌋ : ℤ) = 2 := by
        rw [Int.floor_eq_iff]
        norm_num
      have hw : pyInt
          (((gaussianBlur cIRT (greyImg 4 4) 60).width : ℚ) * (1/2)) = 2 := by
        norm_num [pyInt, gaussianBlur, greyImg, hfl]
      have hh : pyInt
          (((gaussianBlur cIRT (greyImg 4 4) 60).height : ℚ) * (1/2)) = 2 := by
        norm_num [pyInt, gaussianBlur, greyImg, hfl]
      norm_num [create_inceptions, inceptChain, inceptStep, scaled,
        resizeImg, hw, hh]
      rfl)
    0 (by decide)
  exact ⟨by norm_num, h.1, h.2⟩


/-- The hook-installation loop emits no forward-pass event. -/
theorem installHooks_no_forward (arch : Arch) (instId : Nat) :
    ∀ (loi : List String) (hooks : List Hook),
      DGEvent.forwardPass ∉ (installHooks arch instId loi hooks).1 := by
  intro loi
  induction loi with
  | nil => intro hooks; simp [installHooks]
  | cons name rest ih =>
    intro hooks
    simp only [installHooks]
    match h : List.lookup name arch with
    | none => simp
    | some f => simpa using ih (hooks ++ [⟨instId, name⟩])

/-- If some requested layer name is missing, hook installation raises the
lookup error of the first missing name. -/
theorem installHooks_missing (arch : Arch) (instId : Nat) :
    ∀ (loi : List String) (hooks : List Hook) (m : String),
      loi.find? (fun n => (List.lookup n arch).isNone) = some m →
      (installHooks arch instId loi hooks).2.2 =
        .error (.lookupError m) := by
  intro loi
  induction loi with
  | nil => intro hooks m h; simp [List.find?] at h
  | cons name rest ih =>
    intro hooks m h
    simp only [installHooks]
    match hl : List.lookup name arch with
    | none =>
      have : name = m := by
        rw [List.find?_cons_of_pos _ (by simp [hl])] at h
        exact Option.some_injective _ h
      simp [this]
    | some f =>
      have hrest : rest.find? (fun n => (List.lookup n arch).isNone) = some m := by
        rwa [List.find?_cons_of_neg _ (by simp [hl])] at h
      simpa using ih (hooks ++ [⟨instId, name⟩]) m hrest

/--
C5: constructing `DeepGoogLeNet` with a monitored-layer name that is not
among the backbone's addressable sub-layers fails with the `KeyError`
(a `LookupError`) of the first missing name, and the construction performs
no forward pass (so no optimization work can have begun: `DeepDream`
only optimizes through a successfully constructed model).
-/
theorem dgInit_unknown_layer_fails (arch : Arch) (instId : Nat)
    (loi : List String) (shared : List Hook) (m : String)
    (h : loi.find? (fun n => (List.lookup n arch).isNone) = some m) :
    (dgInit arch instId loi shared).2.2 =
      .error (.lookupError m) ∧
    DGEvent.forwardPass ∉ (dgInit arch instId loi shared).1 := by
  constructor
  · simp only [dgInit]
    rw [installHooks_missing arch instId loi shared m h]
    rfl
  · simp only [dgInit, List.mem_cons]
    push_neg
    exact ⟨by simp, installHooks_no_forward arch instId loi shared⟩

/-- Witness for C5: the source's own default layer names, which are not
GoogLeNet child names, make construction fail with a lookup error. -/
theorem dgInit_unknown_layer_fails_witness :
    (["Mixed_5b", "Mixed_6b"].find?
      (fun n => (List.lookup n idArch).isNone) = some "Mixed_5b") ∧
    ((dgInit idArch 1 ["Mixed_5b", "Mixed_6b"] []).2.2 =
      .error (.lookupError "Mixed_5b") ∧
    DGEvent.forwardPass ∉ (dgInit idArch 1 ["Mixed_5b", "Mixed_6b"] []).1) :=
  ⟨by decide,
    dgInit_unknown_layer_fails idArch 1 ["Mixed_5b", "Mixed_6b"] []
      "Mixed_5b" (by decide)⟩

/-- What the forward pass accumulates: the incoming features followed by
the activations of the hooked layers, in execution order. -/
theorem runLayers_features (hooked : List String) :
    ∀ (layers : Arch) (s : FwdState) (x : Tensor),
      (runLayers hooked layers s x).1.features =
        s.features ++ ((layerActivations layers x).filter
          (fun p => decide (p.1 ∈ hooked))).map Prod.snd := by
  intro layers
  induction layers with
  | nil => intro s x; simp [runLayers, layerActivations]
  | cons nf rest ih =>
    intro s x
    match nf with
    | (name, f) =>
      by_cases hm : name ∈ hooked
      · simp [runLayers, layerActivations, hm, ih]
      · simp [runLayers, layerActivations, hm, ih]

/--
C6: the deep-dream objective equals the unweighted sum, over the monitored
layers, of the mean over all elements of each activation captured during
the single forward pass it runs.  (`torch.stack` needs at least one
captured feature, whence the nonemptiness hypothesis on the monitored set.)
-/
theorem deep_dream_loss_spec (inst : DGInstance) (s : FwdState)
    (target : Tensor) (hne : inst.hooked ≠ []) :
    (deep_dream_loss inst s target).2 =
      (((layerActivations inst.layers target).filter
        (fun p => decide (p.1 ∈ inst.hooked))).map
          (fun p => tmean p.2)).sum := by
  simp [deep_dream_loss, dgForward, runLayers_features, List.map_map,
    Function.comp_def]

/-- Witness for C6 on a one-layer backbone and a tiny tensor. -/
theorem deep_dream_loss_spec_witness :
    cInstHooked.hooked ≠ [] ∧
    (deep_dream_loss cInstHooked ⟨[]⟩ tinyT).2 =
      (((layerActivations cInstHooked.layers tinyT).filter
        (fun p => decide (p.1 ∈ cInstHooked.hooked))).map
          (fun p => tmean p.2)).sum :=
  ⟨by decide, deep_dream_loss_spec cInstHooked ⟨[]⟩ tinyT (by decide)⟩

/-- Activation names are the layer names, in order. -/
theorem layerActivations_names :
    ∀ (layers : Arch) (x : Tensor),
      (layerActivations layers x).map Prod.fst = layers.map Prod.fst := by
  intro layers
  induction layers with
  | nil => intro x; rfl
  | cons nf rest ih =>
    intro x
    match nf with
    | (name, f) => simp [layerActivations, ih]

/-- Counting a Nodup sublist by filtering a Nodup list for membership. -/
theorem length_filter_mem {names hooked : List String}
    (hsub : hooked ⊆ names) (hn : names.Nodup) (hh : hooked.Nodup) :
    (names.filter (fun n => decide (n ∈ hooked))).length = hooked.length := by
  have hfn : (names.filter (fun n => decide (n ∈ hooked))).Nodup :=
    hn.filter _
  have hmem : ∀ a, a ∈ names.filter (fun n => decide (n ∈ hooked)) ↔
      a ∈ hooked := by
    intro a
    simp only [List.mem_filter, decide_eq_true_eq]
    exact ⟨fun h => h.2, fun h => ⟨hsub h, h⟩⟩
  exact ((List.perm_ext_iff_of_nodup hfn hh).mpr hmem).length_eq

/--
C8: on every forward pass of the activation-tap backbone, the captured
activation set is reset to empty at the start of the pass (so the result
does not depend on the previous captured state at all), and by the end of
the pass it contains exactly one entry per monitored layer — provided the
monitored names are distinct names of the backbone's (distinctly named)
layers, as a successful construction guarantees.
-/
theorem dgForward_resets_and_captures (inst : DGInstance) (s : FwdState)
    (x : Tensor) (hsub : inst.hooked ⊆ inst.layers.map Prod.fst)
    (hn : (inst.layers.map Prod.fst).Nodup) (hh : inst.hooked.Nodup) :
    (∀ s', dgForward inst s x = dgForward inst s' x) ∧
    (dgForward inst s x).1.features.length = inst.hooked.length := by
  refine ⟨fun s' => rfl, ?_⟩
  rw [dgForward, runLayers_features]
  simp only [List.nil_append, List.length_map]
  have hfilter : ((layerActivations inst.layers x).filter
      (fun p => decide (p.1 ∈ inst.hooked))).length =
      (((layerActivations inst.layers x).map Prod.fst).filter
        (fun n => decide (n ∈ inst.hooked))).length := by
    rw [List.filter_map, List.length_map]
    simp [Function.comp_def]
  rw [hfilter, layerActivations_names]
  exact length_filter_mem hsub hn hh

/-- Witness for C8 on a one-layer backbone, started from a stale nonempty
captured state. -/
theorem dgForward_resets_and_captures_witness :
    (cInstHooked.hooked ⊆ cInstHooked.layers.map Prod.fst ∧
      (cInstHooked.layers.map Prod.fst).Nodup ∧ cInstHooked.hooked.Nodup) ∧
    dgForward cInstHooked ⟨[tinyT]⟩ tinyT = dgForward cInstHooked ⟨[]⟩ tinyT ∧
    (dgForward cInstHooked ⟨[tinyT]⟩ tinyT).1.features.length =
      cInstHooked.hooked.length :=
  ⟨⟨by decide, by decide, by decide⟩,
    (dgForward_resets_and_captures cInstHooked ⟨[tinyT]⟩ tinyT (by decide)
      (by decide) (by decide)).1 ⟨[]⟩,
    (dgForward_resets_and_captures cInstHooked ⟨[tinyT]⟩ tinyT (by decide)
      (by decide) (by decide)).2⟩

/-- Successful hook installation appends exactly this instance's hooks to
the shared class-level list. -/
theorem installHooks_all_found (arch : Arch) (instId : Nat) :
    ∀ (loi : List String) (hooks : List Hook),
      (∀ n ∈ loi, (List.lookup n arch).isSome) →
      (installHooks arch instId loi hooks).2.1 =
        hooks ++ loi.map (Hook.mk instId) := by
  intro loi
  induction loi with
  | nil => intro hooks hfound; simp [installHooks]
  | cons name rest ih =>
    intro hooks hfound
    simp only [installHooks]
    match hl : List.lookup name arch with
    | none =>
      have := hfound name (by simp)
      rw [hl] at this
      simp at this
    | some f =>
      have := ih (hooks ++ [⟨instId, name⟩])
        (fun n hn => hfound n (by simp [hn]))
      simp only [this]
      simp

/--
C10: `hooks` is a class-level attribute of `DeepGoogLeNet` shared by all
instances: every constructor call appends its capture hooks to the same
shared list, so `remove()` on any one instance — whatever the receiver —
detaches the capture hooks registered by every instance constructed so
far, not only the receiver's own hooks.
-/
theorem remove_detaches_all_instances (arch : Arch) (loiA loiB : List String)
    (receiver : Nat)
    (hA : ∀ n ∈ loiA, (List.lookup n arch).isSome)
    (hB : ∀ n ∈ loiB, (List.lookup n arch).isSome) :
    dgRemove receiver
        ((dgInit arch 2 loiB ((dgInit arch 1 loiA []).2.1)).2.1) =
      loiA.map (Hook.mk 1) ++ loiB.map (Hook.mk 2) := by
  have h1 : (dgInit arch 1 loiA []).2.1 = loiA.map (Hook.mk 1) := by
    simpa [dgInit] using installHooks_all_found arch 1 loiA [] hA
  have h2 := installHooks_all_found arch 2 loiB (loiA.map (Hook.mk 1)) hB
  rw [h1]
  simp only [dgInit, dgRemove]
  exact h2

/-- Witness for C10: two instances hook the same backbone; `remove` called
through instance 1 detaches instance 2's hook as well. -/
theorem remove_detaches_all_instances_witness :
    (∀ n ∈ ["conv1"], (List.lookup n idArch).isSome) ∧
    dgRemove 1 ((dgInit idArch 2 ["conv1"]
        ((dgInit idArch 1 ["conv1"] []).2.1)).2.1) =
      [Hook.mk 1 "conv1", Hook.mk 2 "conv1"] :=
  ⟨by decide,
    remove_detaches_all_instances idArch ["conv1"] ["conv1"] 1
      (by decide) (by decide)⟩

/-- Stepping then iterating equals iterating from the stepped state. -/
theorem dreamStateAt_shift (inst : DGInstance) (rt : AutogradRuntime)
    (lw : ℚ) : ∀ (i : Nat) (st : DreamState),
    dreamStateAt inst rt lw st (i + 1) =
      dreamStateAt inst rt lw (dreamStep inst rt lw st).1 i := by
  intro i
  induction i with
  | zero => intro st; rfl
  | succ j ih =>
    intro st
    show (dreamStep inst rt lw (dreamStateAt inst rt lw st (j + 1))).1 = _
    rw [ih st]
    rfl

/-- The `i`-th added tensor of the epoch loop is the one computed by the
step out of the state reached after `i` epochs. -/
theorem dreamLoop_getD (inst : DGInstance) (rt : AutogradRuntime) (lw : ℚ) :
    ∀ (epochs : Nat) (st : DreamState) (i : Nat), i < epochs →
      (dreamLoop inst rt lw epochs st).2.getD i zeroT =
        (dreamStep inst rt lw (dreamStateAt inst rt lw st i)).2 := by
  intro epochs
  induction epochs with
  | zero => intro st i hi; omega
  | succ k ih =>
    intro st i hi
    match i with
    | 0 => rfl
    | j + 1 =>
      have hj : j < k := by omega
      have := ih (dreamStep inst rt lw st).1 j hj
      simp only [dreamLoop, List.getD_cons_succ]
      rw [this, dreamStateAt_shift]

/-- The `learning_rate` variable after `i` epochs: the base rate divided by
`learning_weight` once per completed epoch. -/
theorem dreamStateAt_lr (inst : DGInstance) (rt : AutogradRuntime) (lw : ℚ) :
    ∀ (i : Nat) (st : DreamState),
      (dreamStateAt inst rt lw st i).lr = st.lr / lw ^ i := by
  intro i
  induction i with
  | zero => intro st; simp [dreamStateAt]
  | succ j ih =>
    intro st
    show (dreamStep inst rt lw (dreamStateAt inst rt lw st j)).1.lr = _
    have : (dreamStep inst rt lw (dreamStateAt inst rt lw st j)).1.lr =
        (dreamStateAt inst rt lw st j).lr / lw := rfl
    rw [this, ih st, div_div, ← pow_succ]

/--
C2 (amended): in epoch `i` (0-based) of a single `dream_inception` call the
value added to the target tensor is the standardized gradient multiplied by
`learning_rate / learning_weight ^ (i + 1)` — the effective step size decays
geometrically with the epoch, because the source reassigns
`learning_rate = learning_rate / learning_weight` inside the loop.  Only in
epoch 0 does it equal `learning_rate / learning_weight`.
-/
theorem dream_step_size_decays (inst : DGInstance) (irt : ImageRuntime)
    (rt : AutogradRuntime) (s : FwdState) (image : Img) (epochs : Nat)
    (lr lw : ℚ) (i : Nat) (hi : i < epochs) :
    (dreamAdded inst irt rt s image epochs lr lw).getD i zeroT =
      mulT (stdGradAt inst irt rt s image lr lw i) (lr / lw ^ (i + 1)) := by
  rw [dreamAdded, dreamLoop_getD inst rt lw epochs _ i hi]
  have hlr : (dreamStateAt inst rt lw
      ⟨s, preprocess irt image, lr⟩ i).lr = lr / lw ^ i :=
    dreamStateAt_lr inst rt lw i _
  simp only [dreamStep, stdGradAt]
  rw [hlr, div_div, ← pow_succ]

/-- Witness for C2's amended decay law at epoch 0 of a one-epoch call. -/
theorem dream_step_size_decays_witness :
    0 < 1 ∧
    (dreamAdded cInst cIRT cRT ⟨[]⟩ (greyImg 8 8) 1 1 2).getD 0 zeroT =
      mulT (stdGradAt cInst cIRT cRT ⟨[]⟩ (greyImg 8 8) 1 2 0)
        (1 / 2 ^ (0 + 1)) :=
  ⟨by decide,
    dream_step_size_decays cInst cIRT cRT ⟨[]⟩ (greyImg 8 8) 1 1 2 0
      (by decide)⟩

/-- Counterexample to C2 as stated: with base rate 1 and weight 2, epoch 1
adds the standardized gradient times 1/4, not times the constant 1/2 —
at the sample point the added value is 25000000 while the claimed constant
step would add 50000000. -/
theorem dream_constant_step_cex :
    ((dreamAdded cInst cIRT cRT ⟨[]⟩ (greyImg 8 8) 2 1 2).getD 1
        zeroT).data 0 0 0 = 25000000 ∧
    (stdGradAt cInst cIRT cRT ⟨[]⟩ (greyImg 8 8) 1 2 1).data 0 0 0 *
        (1 / 2) = 50000000 ∧
    (25000000 : ℚ) ≠ 50000000 := by
  refine ⟨?_, ?_, by norm_num⟩
  · norm_num [dreamAdded, dreamLoop, dreamStep, deep_dream_loss, dgForward,
      runLayers, cInst, idArch, cRT, oneT, divT, mulT, gradEps]
  · norm_num [stdGradAt, dreamStateAt, dreamStep, deep_dream_loss, dgForward,
      runLayers, cInst, idArch, cRT, oneT, divT, gradEps]

/-- One epoch leaves the target tensor's spatial size unchanged (the update
is elementwise and `clip` only rewrites values). -/
theorem dreamLoop_target_size (inst : DGInstance) (rt : AutogradRuntime)
    (lw : ℚ) : ∀ (e : Nat) (st : DreamState),
    (dreamLoop inst rt lw e st).1.target.width = st.target.width ∧
    (dreamLoop inst rt lw e st).1.target.height = st.target.height := by
  intro e
  induction e with
  | zero => intro st; exact ⟨rfl, rfl⟩
  | succ k ih =>
    intro st
    have h := ih (dreamStep inst rt lw st).1
    exact ⟨h.1.trans rfl, h.2.trans rfl⟩

/-- The optimizer's target always lives at the fixed working resolution:
`preprocess` resizes to `SIZE`×`SIZE` and no epoch changes the size. -/
theorem dream_inception_target_size (inst : DGInstance) (irt : ImageRuntime)
    (rt : AutogradRuntime) (s : FwdState) (image : Img) (epochs : Nat)
    (lr lw : ℚ) :
    (dream_inception inst irt rt s image epochs lr lw).target.width = SIZE ∧
    (dream_inception inst irt rt s image epochs lr lw).target.height = SIZE :=
  dreamLoop_target_size inst rt lw epochs ⟨s, preprocess irt image, lr⟩

/-- On any nonempty pyramid suffix the orchestrator loop ends with a dream
image of the fixed working resolution. -/
theorem dreamPass_output_size (inst : DGInstance) (irt : ImageRuntime)
    (rt : AutogradRuntime) (epochs : Nat) (lr bf : ℚ) :
    ∀ (lst : List Img) (w : Nat) (s : FwdState) (d : Option Img),
      lst ≠ [] →
      ∃ out, (dreamPass inst irt rt epochs lr bf lst w s d).2 = some out ∧
        out.width = SIZE ∧ out.height = SIZE := by
  intro lst
  induction lst with
  | nil => intro w s d h; exact absurd rfl h
  | cons inc rest ih =>
    intro w s d _
    match rest, ih with
    | [], _ =>
      refine ⟨postprocess (dream_inception inst irt rt s inc epochs lr
        ((w : ℚ) + 1)).target, rfl, ?_, ?_⟩
      · exact (dream_inception_target_size inst irt rt s inc epochs lr _).1
      · exact (dream_inception_target_size inst irt rt s inc epochs lr _).2
    | r :: rs, ih =>
      exact ih (w + 1)
        (dream_inception inst irt rt s inc epochs lr ((w : ℚ) + 1)).fwd
        (some (postprocess (dream_inception inst irt rt s inc epochs lr
          ((w : ℚ) + 1)).target))
        (List.cons_ne_nil r rs)

/--
C1 (amended): for every input image and every parameter setting, whenever
`DeepDream.__call__` returns an image, that image has width and height
`SIZE` = 512 — the fixed working resolution that `preprocess` resizes every
scale to and that `postprocess` never undoes — regardless of the input
image's dimensions.  It equals the input size only for a 512×512 input.
-/
theorem call_output_is_working_resolution (inst : DGInstance)
    (irt : ImageRuntime) (rt : AutogradRuntime) (s : FwdState) (image : Img)
    (epochs : Nat) (lr : ℚ) (n : Nat) (sf bf br : ℚ)
    (r : FwdState × Option Img)
    (hok : deepDreamCall inst irt rt s image epochs lr n sf bf br = .ok r) :
    r.2.isSome = true ∧ (r.2.getD emptyImg).width = SIZE ∧
    (r.2.getD emptyImg).height = SIZE := by
  simp only [deepDreamCall] at hok
  cases hc : create_inceptions irt image n sf br with
  | error e => simp only [hc] at hok; exact Except.noConfusion hok
  | ok L =>
    simp only [hc] at hok
    injection hok with hok
    subst hok
    obtain ⟨out, hout, hw, hh⟩ := dreamPass_output_size inst irt rt epochs
      lr bf L.reverse 0 s none
      (by simpa using create_inceptions_ok_ne_nil hc)
    simp [hout, hw, hh]

/-- Witness for C1 at a concrete successful call (256×256 input, 0 epochs,
a single pyramid level). -/
theorem call_output_is_working_resolution_witness :
    deepDreamCall cInst cIRT cRT ⟨[]⟩ (greyImg 256 256) 0 1 1 (1/2) (3/10)
        60 =
      .ok (⟨[]⟩, some (postprocess (preprocess cIRT (greyImg 256 256)))) ∧
    ((some (postprocess (preprocess cIRT
        (greyImg 256 256)))).isSome = true ∧
      ((some (postprocess (preprocess cIRT
        (greyImg 256 256)))).getD emptyImg).width = SIZE ∧
      ((some (postprocess (preprocess cIRT
        (greyImg 256 256)))).getD emptyImg).height = SIZE) := by
  have h := call_output_is_working_resolution cInst cIRT cRT ⟨[]⟩
    (greyImg 256 256) 0 1 1 (1/2) (3/10) 60
    (⟨[]⟩, some (postprocess (preprocess cIRT (greyImg 256 256)))) rfl
  exact ⟨rfl, h⟩

/-- Counterexample to C1 as stated: a 256×256 input image yields a 512×512
output, not a 256×256 one (parameters: 0 epochs, a single pyramid level). -/
theorem call_not_input_size_cex :
    (greyImg 256 256).width = 256 ∧
    deepDreamCall cInst cIRT cRT ⟨[]⟩ (greyImg 256 256) 0 1 1 (1/2) (3/10)
        60 =
      .ok (⟨[]⟩, some (postprocess (preprocess cIRT (greyImg 256 256)))) ∧
    (postprocess (preprocess cIRT (greyImg 256 256))).width = 512 ∧
    (512 : Nat) ≠ 256 :=
  ⟨rfl, rfl, rfl, by decide⟩

/-- The optimizer step ignores the incoming captured-feature state: the forward
pass it runs resets that state first.  (Definitional, but this is the
load-bearing fact for determinism across calls.) -/
theorem dreamStep_fwd_indep (inst : DGInstance) (rt : AutogradRuntime)
    (lw : ℚ) (s s' : FwdState) (t : Tensor) (lr : ℚ) :
    dreamStep inst rt lw ⟨s, t, lr⟩ = dreamStep inst rt lw ⟨s', t, lr⟩ := rfl

/-- The optimizer's final target does not depend on the captured-feature
state the call started from. -/
theorem dreamLoop_target_indep (inst : DGInstance) (rt : AutogradRuntime)
    (lw : ℚ) : ∀ (e : Nat) (s s' : FwdState) (t : Tensor) (lr : ℚ),
    (dreamLoop inst rt lw e ⟨s, t, lr⟩).1.target =
      (dreamLoop inst rt lw e ⟨s', t, lr⟩).1.target := by
  intro e
  induction e with
  | zero => intro s s' t lr; rfl
  | succ k ih =>
    intro s s' t lr
    show (dreamLoop inst rt lw k (dreamStep inst rt lw ⟨s, t, lr⟩).1).1.target = _
    rw [dreamStep_fwd_indep inst rt lw s s' t lr]
    rfl

/-- The orchestrator loop's output image does not depend on the
captured-feature state it starts from. -/
theorem dreamPass_output_indep (inst : DGInstance) (irt : ImageRuntime)
    (rt : AutogradRuntime) (epochs : Nat) (lr bf : ℚ) :
    ∀ (lst : List Img) (w : Nat) (s s' : FwdState) (d : Option Img),
      (dreamPass inst irt rt epochs lr bf lst w s d).2 =
        (dreamPass inst irt rt epochs lr bf lst w s' d).2 := by
  intro lst
  induction lst with
  | nil => intro w s s' d; rfl
  | cons inc rest ih =>
    intro w s s' d
    simp only [dreamPass]
    have ht : (dream_inception inst irt rt s inc epochs lr
        ((w : ℚ) + 1)).target =
        (dream_inception inst irt rt s' inc epochs lr ((w : ℚ) + 1)).target :=
      dreamLoop_target_indep inst rt _ epochs s s' _ lr
    rw [ht]
    exact ih (w + 1) _ _ _

/--
C9: calling `run` twice with identical input image and identical parameters
on the same (pure, deterministic) backbone produces identical output
images: whenever the first call returns, the second call — starting from
whatever captured-feature state the first call left behind — also returns,
with the same image.
-/
theorem call_twice_identical (inst : DGInstance) (irt : ImageRuntime)
    (rt : AutogradRuntime) (s : FwdState) (image : Img) (epochs : Nat)
    (lr : ℚ) (n : Nat) (sf bf br : ℚ) (r : FwdState × Option Img)
    (hok : deepDreamCall inst irt rt s image epochs lr n sf bf br = .ok r) :
    (deepDreamCall inst irt rt r.1 image epochs lr n sf bf br).map
        Prod.snd =
      .ok r.2 := by
  simp only [deepDreamCall] at hok ⊢
  cases hc : create_inceptions irt image n sf br with
  | error e => simp only [hc] at hok; exact Except.noConfusion hok
  | ok L =>
    simp only [hc] at hok ⊢
    injection hok with hok
    subst hok
    simp only [Except.map]
    rw [dreamPass_output_indep inst irt rt epochs lr bf L.reverse 0 _ s none]

/-- Witness for C9 at a concrete successful call: the second call returns
the identical output image. -/
theorem call_twice_identical_witness :
    deepDreamCall cInst cIRT cRT ⟨[]⟩ (greyImg 256 256) 0 1 1 (1/2) (3/10)
        60 =
      .ok (⟨[]⟩, some (postprocess (preprocess cIRT (greyImg 256 256)))) ∧
    (deepDreamCall cInst cIRT cRT ⟨[]⟩ (greyImg 256 256) 0 1 1 (1/2) (3/10)
        60).map Prod.snd =
      .ok (some (postprocess (preprocess cIRT (greyImg 256 256)))) := by
  have h := call_twice_identical cInst cIRT cRT ⟨[]⟩ (greyImg 256 256) 0 1 1
    (1/2) (3/10) 60
    (⟨[]⟩, some (postprocess (preprocess cIRT (greyImg 256 256)))) rfl
  exact ⟨rfl, h⟩

end DeepAPI
